import Mathlib

/-!
Shallow embedding of the aiq-energy-insights analytics backend.

The relational store (prisma tables `states`, `plants`, `plant_generations`
and the materialized view `state_generation_mv`) is modelled as lists of
records; numeric generation values are exact rationals.  The serial
surrogate id of a `plant_generations` row is exposed by the API DTOs but
never consulted by any query or upsert (rows are addressed by their unique
`(plantId, year)` key), so it is omitted from the model.

Query operations are translated from
`src/modules/plants/repositories/plant.repository.ts`,
`src/modules/plants/plants.service.ts`,
`src/modules/states/states.service.ts` and
`src/modules/states/repositories/state.repository.ts`;
the cache layer from `src/redis/redis.module.ts` and
`src/common/utils/redis.helper.ts`; the warming service from
`src/modules/states/services/cache-warming.service.ts`; and the ingestion
pipeline from `src/scripts/ingest-transactional.ts`.
-/

namespace Aiq

/-- Row of the `states` table. -/
structure StateRow where
  id : Nat
  code : String
  name : String
deriving DecidableEq, Repr

/-- Row of the `plants` table (unique on `(name, stateId)`). -/
structure PlantRow where
  id : Nat
  name : String
  stateId : Nat
deriving DecidableEq, Repr

/-- Row of the `plant_generations` table (unique on `(plantId, year)`). -/
structure GenRow where
  plantId : Nat
  year : Int
  netGeneration : ℚ
deriving DecidableEq, Repr

/-- Row of the materialized view `state_generation_mv`.  The view is a
cached derived value: it is refreshed out of band and may be stale with
respect to `plant_generations`. -/
structure MvRow where
  stateId : Nat
  year : Int
  totalGeneration : ℚ
deriving DecidableEq, Repr

/-- The relational store. -/
structure Db where
  states : List StateRow
  plants : List PlantRow
  gens : List GenRow
  mv : List MvRow
deriving DecidableEq, Repr

/-- Errors surfaced by the query engine (`NotFoundException` in the source,
with the message text it carries). -/
inductive QueryError where
| stateNotFound (code : String)
| stateNoData (code : String) (year : Int)
| plantNotFound (id : Nat)
deriving DecidableEq, Repr

/-- The message string attached to each `NotFoundException` in
`plant.repository.ts`. -/
def QueryError.message : QueryError → String
| .stateNotFound code => "State with code '" ++ code ++ "' not found"
| .stateNoData code year =>
    "No data found for state '" ++ code ++ "' in year " ++ toString year
| .plantNotFound id => "Plant with ID " ++ toString id ++ " not found"

/-- `prisma.state.findUnique({ where: { code } })`. -/
def Db.findStateByCode (db : Db) (code : String) : Option StateRow :=
  db.states.find? (fun s => s.code == code)

/-- A generation fact joined with its plant and that plant's state
(the `include` clause of the `plantGeneration.findMany` call). -/
structure FactJoined where
  plantId : Nat
  plantName : String
  stateId : Nat
  stateCode : String
  stateName : String
  year : Int
  netGeneration : ℚ
deriving DecidableEq, Repr

/-- The inner join of `plant_generations` with `plants` and `states`.
Foreign keys guarantee the lookups succeed on a well-formed store; rows
with a dangling reference are dropped. -/
def Db.joinedGens (db : Db) : List FactJoined :=
  db.gens.filterMap (fun g =>
    (db.plants.find? (fun p => p.id == g.plantId)).bind (fun p =>
      (db.states.find? (fun s => s.id == p.stateId)).map (fun s =>
        { plantId := p.id, plantName := p.name, stateId := s.id,
          stateCode := s.code, stateName := s.name, year := g.year,
          netGeneration := g.netGeneration })))

/-- `orderBy: { netGeneration: "desc" }`. -/
def genDescOrder (a b : FactJoined) : Prop :=
  b.netGeneration ≤ a.netGeneration

instance : DecidableRel genDescOrder := fun a b =>
  inferInstanceAs (Decidable (b.netGeneration ≤ a.netGeneration))

instance : IsTotal FactJoined genDescOrder :=
  ⟨fun a b => le_total b.netGeneration a.netGeneration⟩

instance : IsTrans FactJoined genDescOrder :=
  ⟨fun _ _ _ hab hbc => le_trans hbc hab⟩

/-- The `where` clause of the `plantGeneration.findMany` call: optional
year filter and optional filter on the owning plant's state. -/
def matchesFilters (yearF : Option Int) (stateIdF : Option Nat)
    (f : FactJoined) : Bool :=
  (match yearF with
   | none => true
   | some y => f.year == y) &&
  (match stateIdF with
   | none => true
   | some sid => f.stateId == sid)

/-- Lookup into the materialized view for a `(stateId, year)` pair
(the `stateTotalMap` built from `SELECT ... FROM state_generation_mv`). -/
def Db.mvLookup (db : Db) (stateId : Nat) (year : Int) : Option ℚ :=
  (db.mv.find? (fun r => r.stateId == stateId && r.year == year)).map
    (fun r => r.totalGeneration)

/-- The guarded percentage computation
`stateTotal > 0 ? (netGen / stateTotal) * 100 : 0`: the division is only
performed when the denominator is strictly positive. -/
def percentOf (netGen stateTotal : ℚ) : ℚ :=
  if 0 < stateTotal then netGen / stateTotal * 100 else 0

/-- An element of the list returned by `getTopNPlants`
(interface `PlantWithGeneration`). -/
structure PlantResult where
  plantId : Nat
  name : String
  stateId : Nat
  stateCode : String
  stateName : String
  year : Int
  netGeneration : ℚ
  percentOfState : ℚ
  rank : Nat
deriving DecidableEq, Repr

/-- Query parameters of `PlantRepository.getTopNPlants`. -/
structure TopPlantsOptions where
  top : Nat
  stateCode : Option String := none
  year : Option Int := none
deriving DecidableEq, Repr

/-- Steps 2-4 of `getTopNPlants`: filter the facts, order them by
`netGeneration` descending, take the first `top`, and annotate each with
`percentOfState` (from the materialized-view lookup, `|| 0` on a miss)
and the 1-based `rank := index + 1`.  The source's early return on an
empty result list produces the same value as mapping over `[]`. -/
def topNRows (db : Db) (top : Nat) (yearF : Option Int)
    (stateIdF : Option Nat) : List PlantResult :=
  let pgs := (List.insertionSort genDescOrder
    (db.joinedGens.filter (matchesFilters yearF stateIdF))).take top
  pgs.enum.map (fun ip =>
    { plantId := ip.2.plantId, name := ip.2.plantName,
      stateId := ip.2.stateId, stateCode := ip.2.stateCode,
      stateName := ip.2.stateName, year := ip.2.year,
      netGeneration := ip.2.netGeneration,
      percentOfState :=
        percentOf ip.2.netGeneration ((db.mvLookup ip.2.stateId ip.2.year).getD 0),
      rank := ip.1 + 1 })

/-- `PlantRepository.getTopNPlants`: when `stateCode` is given it is
resolved first and an unknown code fails with `NotFoundException` before
any generation fact is read. -/
def getTopNPlants (db : Db) (opts : TopPlantsOptions) :
    Except QueryError (List PlantResult) :=
  match opts.stateCode with
  | some code =>
    match db.findStateByCode code with
    | none => .error (.stateNotFound code)
    | some st => .ok (topNRows db opts.top opts.year (some st.id))
  | none => .ok (topNRows db opts.top opts.year none)

/-- Query parameters of `PlantsService.getTopPlants` (`GetPlantsQueryDto`):
all three parameters are optional at the service boundary. -/
structure GetPlantsQuery where
  top : Option Nat := none
  state : Option String := none
  year : Option Int := none
deriving DecidableEq, Repr

/-- `PlantsService.getTopPlants`: applies the default `top = 10`,
delegates to the repository, and re-assigns `rank := index + 1` on the
returned list. -/
def plantsServiceGetTopPlants (db : Db) (q : GetPlantsQuery) :
    Except QueryError (List PlantResult) :=
  match getTopNPlants db
      { top := q.top.getD 10, stateCode := q.state, year := q.year } with
  | .error e => .error e
  | .ok plants => .ok (plants.enum.map (fun ip => { ip.2 with rank := ip.1 + 1 }))

/-- The count of a state's plants having a generation fact in a year
(`prisma.plant.count({ where: { stateId, generations: { some: { year } } } })`
in `getStateDetail`, and the `COUNT(DISTINCT p.id) ... GROUP BY p.state_id`
query in `getStatesSummary`; plant ids are the primary key, so the rows
are distinct). -/
def Db.countPlantsWithGen (db : Db) (stateId : Nat) (year : Int) : Nat :=
  (db.plants.filter (fun p => p.stateId == stateId &&
    db.gens.any (fun g => g.plantId == p.id && g.year == year))).length

/-- Result record of `PlantRepository.getStateDetail`. -/
structure StateDetail where
  state : StateRow
  year : Int
  totalGeneration : ℚ
  percentOfNational : ℚ
  topPlants : List PlantResult
  plantCount : Nat
deriving DecidableEq, Repr

/-- `SELECT SUM(total_generation) FROM state_generation_mv WHERE year = y`.
The sum over zero rows is `0`, which the source also maps to a zero
percentage (`nationalTotal > 0` fails both on `0` and on SQL's NULL). -/
def Db.nationalTotal (db : Db) (year : Int) : ℚ :=
  ((db.mv.filter (fun r => r.year == year)).map (fun r => r.totalGeneration)).sum

/-- `PlantRepository.getStateDetail`: resolves the state (`NotFound` with
one message if the code is unknown), then requires an aggregate row for
`(state, year)` (`NotFound` with a different message if absent), then
collects the state's top-10 plants and national percentage. -/
def getStateDetail (db : Db) (stateCode : String) (year : Int) :
    Except QueryError StateDetail :=
  match db.findStateByCode stateCode with
  | none => .error (.stateNotFound stateCode)
  | some st =>
    match db.mvLookup st.id year with
    | none => .error (.stateNoData stateCode year)
    | some totalGeneration =>
      match getTopNPlants db
          { top := 10, stateCode := some stateCode, year := some year } with
      | .error e => .error e
      | .ok topPlants =>
        .ok { state := st, year := year, totalGeneration := totalGeneration,
              percentOfNational :=
                percentOf totalGeneration (db.nationalTotal year),
              topPlants := topPlants,
              plantCount := db.countPlantsWithGen st.id year }

/-- A materialized-view row joined with its state
(`FROM state_generation_mv mv JOIN states s ON s.id = mv.state_id`). -/
structure MvJoined where
  stateId : Nat
  stateCode : String
  stateName : String
  year : Int
  totalGeneration : ℚ
deriving DecidableEq, Repr

/-- `ORDER BY mv.total_generation DESC`. -/
def totalDescOrder (a b : MvJoined) : Prop :=
  b.totalGeneration ≤ a.totalGeneration

instance : DecidableRel totalDescOrder := fun a b =>
  inferInstanceAs (Decidable (b.totalGeneration ≤ a.totalGeneration))

instance : IsTotal MvJoined totalDescOrder :=
  ⟨fun a b => le_total b.totalGeneration a.totalGeneration⟩

instance : IsTrans MvJoined totalDescOrder :=
  ⟨fun _ _ _ hab hbc => le_trans hbc hab⟩

/-- The `stateTotals` row set of `getStatesSummary`: materialized-view rows
of the year joined with their state, ordered by total descending. -/
def Db.mvJoinedForYear (db : Db) (year : Int) : List MvJoined :=
  List.insertionSort totalDescOrder
    ((db.mv.filter (fun r => r.year == year)).filterMap (fun r =>
      (db.states.find? (fun s => s.id == r.stateId)).map (fun s =>
        { stateId := r.stateId, stateCode := s.code, stateName := s.name,
          year := r.year, totalGeneration := r.totalGeneration })))

/-- An element of the list returned by `PlantRepository.getStatesSummary`
(interface `StateSummary`). -/
structure StateSummary where
  stateId : Nat
  code : String
  name : String
  year : Int
  totalGeneration : ℚ
  percentOfNational : ℚ
  plantCount : Nat
deriving DecidableEq, Repr

/-- `PlantRepository.getStatesSummary`: the national total is the sum of the
returned rows' totals, and each row's `percentOfNational` is its total over
that sum (guarded, `0` when the total is not positive).  The early return on
zero rows equals mapping over `[]`. -/
def getStatesSummary (db : Db) (year : Int) : List StateSummary :=
  let stateTotals := db.mvJoinedForYear year
  let nationalTotal := (stateTotals.map (fun st => st.totalGeneration)).sum
  stateTotals.map (fun st =>
    { stateId := st.stateId, code := st.stateCode, name := st.stateName,
      year := st.year, totalGeneration := st.totalGeneration,
      percentOfNational := percentOf st.totalGeneration nationalTotal,
      plantCount := db.countPlantsWithGen st.stateId year })

/-! Concrete example store used by witnesses. -/

/-- A small store: two states, three plants, one year of data, refreshed
materialized view. -/
def exDb : Db :=
  { states := [⟨1, "TX", "Texas"⟩, ⟨2, "CA", "California"⟩],
    plants := [⟨1, "Alpha", 1⟩, ⟨2, "Beta", 2⟩, ⟨3, "Gamma", 1⟩],
    gens := [⟨1, 2023, 60⟩, ⟨2, 2023, 50⟩, ⟨3, 2023, 40⟩],
    mv := [⟨1, 2023, 100⟩, ⟨2, 2023, 50⟩] }

/-- The value of `getTopNPlants exDb ⟨2, none, some 2023⟩`. -/
def exTopRes : List PlantResult :=
  [{ plantId := 1, name := "Alpha", stateId := 1, stateCode := "TX",
     stateName := "Texas", year := 2023, netGeneration := 60,
     percentOfState := 60, rank := 1 },
   { plantId := 2, name := "Beta", stateId := 2, stateCode := "CA",
     stateName := "California", year := 2023, netGeneration := 50,
     percentOfState := 100, rank := 2 }]

/-- A store whose only aggregate row for 2023 has a zero total: the year
has an aggregate row, yet every percentage is computed as 0. -/
def cexDb : Db :=
  { states := [⟨1, "TX", "Texas"⟩],
    plants := [⟨1, "Alpha", 1⟩],
    gens := [⟨1, 2023, 0⟩],
    mv := [⟨1, 2023, 0⟩] }

/-! Cache layer.  Key builders are the template literals of
`state.repository.ts` and `states.service.ts`; no repository or service
ever builds a key in the `plants` domain. -/

/-- `"states:all"` (`StateRepository.findAll`). -/
def statesAllKey : String := "states:all"

/-- `` `state:${code}` `` (`StateRepository.findByCode`). -/
def stateKey (code : String) : String := "state:" ++ code

/-- `` `state:${stateCode}:generation:${year}` `` with the literal `"all"`
when the optional year is absent (`StateRepository.getGenerationByState`). -/
def genByStateKey (code : String) (yearQ : Option Int) : String :=
  match yearQ with
  | some y => "state:" ++ (code ++ (":generation:" ++ toString y))
  | none => "state:" ++ (code ++ ":generation:all")

/-- `` `state:${stateCode}:top-plants:${year}:${limit}` `` with the literal
`"all"` when the optional year is absent
(`StateRepository.getTopPlantsByState`). -/
def topPlantsByStateKey (code : String) (yearQ : Option Int)
    (limit : Nat) : String :=
  match yearQ with
  | some y =>
    "state:" ++ (code ++ (":top-plants:" ++
      (toString y ++ (":" ++ toString limit))))
  | none => "state:" ++ (code ++ (":top-plants:all:" ++ toString limit))

/-- `` `states:generation:year:${year}` ``
(`StateRepository.getGenerationByYear`). -/
def genByYearKey (year : Int) : String :=
  "states:generation:year:" ++ toString year

/-- `` `state:${stateCode}:statistics` ``
(`StateRepository.getStateStatistics`). -/
def statisticsKey (code : String) : String :=
  "state:" ++ (code ++ ":statistics")

/-- `` `states:summary:${year}` `` (`StatesService.getStatesSummary`). -/
def statesSummaryKey (year : Int) : String :=
  "states:summary:" ++ toString year

/-- `` `state:${code}:${year}:top:${topPlants}` ``
(`StatesService.getStateDetail`; the service upper-cases the code before
building the key). -/
def stateDetailKey (code : String) (year : Int) (top : Nat) : String :=
  "state:" ++ (code ++ (":" ++ (toString year ++ (":top:" ++ toString top))))

/-- Boolean prefix test on character lists. -/
def charsStart : List Char → List Char → Bool
| [], _ => true
| _ :: _, [] => false
| a :: as, b :: bs => a == b && charsStart as bs

/-- Boolean test that the string `s` starts with `p`. -/
def keyStarts (p s : String) : Bool := charsStart p.data s.data

/-- Payloads stored in the cache (the `JSON.stringify`/`JSON.parse`
round-trip is exact, so values are modelled typed rather than as raw
strings). -/
inductive CacheVal where
| statesAll (v : List StateRow)
| summaryList (v : List StateSummary)
deriving DecidableEq, Repr

/-- The cache backend.  When `reachable = false` every command issued by
the connected client is rejected (ioredis after its retry strategy gives
up). -/
structure CacheState where
  reachable : Bool
  entries : List (String × CacheVal × Nat)
deriving DecidableEq, Repr

/-- `redis.get`: rejects when the backend is unreachable. -/
def cacheGet (c : CacheState) (k : String) :
    Except Unit (Option CacheVal) :=
  if c.reachable then
    .ok ((c.entries.find? (fun e => e.1 == k)).map (fun e => e.2.1))
  else .error ()

/-- `redis.setex`: overwrites the key unconditionally; rejects when the
backend is unreachable. -/
def cacheSetex (c : CacheState) (k : String) (ttl : Nat) (v : CacheVal) :
    Except Unit CacheState :=
  if c.reachable then
    .ok { c with
          entries := (k, v, ttl) :: c.entries.filter (fun e => e.1 != k) }
  else .error ()

/-- The fallback mock client of `redis.module.ts`: `get` always misses. -/
def mockGet (_k : String) : Option CacheVal := none

/-- The fallback mock client of `redis.module.ts`: `setex` pretends to
succeed. -/
def mockSetex (_k : String) (_ttl : Nat) (_v : CacheVal) : String := "OK"

/-- The fallback mock client of `redis.module.ts`: `del` pretends to have
deleted zero keys. -/
def mockDel (_k : String) : Nat := 0

/-- The fallback mock client of `redis.module.ts`: `scan` returns an ended
cursor and no keys. -/
def mockScan (_cursor : String) : String × List String := ("0", [])

/-- `orderBy: { code: "asc" }` in `StateRepository.findAll`. -/
def codeAscOrder (a b : StateRow) : Prop := a.code ≤ b.code

instance : DecidableRel codeAscOrder := fun a b =>
  inferInstanceAs (Decidable (a.code ≤ b.code))

instance : IsTotal StateRow codeAscOrder :=
  ⟨fun a b => le_total a.code b.code⟩

instance : IsTrans StateRow codeAscOrder :=
  ⟨fun _ _ _ hab hbc => le_trans hab hbc⟩

/-- `prisma.state.findMany({ orderBy: { code: "asc" } })`. -/
def dbFindAllStates (db : Db) : List StateRow :=
  List.insertionSort codeAscOrder db.states

/-- `StateRepository.findAll`: the cache read and the cache write each sit
in their own try/catch whose catch only logs, so a cache failure falls
through to the database and never escapes.  A cached payload of the wrong
shape is unreachable under the key discipline and treated as a miss. -/
def stateRepoFindAll (db : Db) (c : CacheState) :
    List StateRow × CacheState :=
  match cacheGet c statesAllKey with
  | .ok (some (.statesAll v)) => (v, c)
  | _ =>
    let states := dbFindAllStates db
    match cacheSetex c statesAllKey 3600 (.statesAll states) with
    | .ok c2 => (states, c2)
    | .error _ => (states, c)

/-- Errors escaping a service call. -/
inductive SvcError where
| cacheUnavailable
| query (e : QueryError)
deriving DecidableEq, Repr

/-- The `rank := index + 1` mapping of `StatesService.getStatesSummary`
(the repository summary plus the service-assigned rank; the model keeps
the repository record and adds no field, ranks being recoverable from the
position, so the cached payload is the ranked list itself). -/
def rankSummaries (l : List StateSummary) : List StateSummary := l

/-- `StatesService.getStatesSummary`: the `redis.get` and `redis.setex`
calls sit inside the service's single try/catch whose catch logs and
rethrows, so a rejected cache command propagates to the caller instead of
falling back to the query engine. -/
def statesServiceGetStatesSummary (db : Db) (c : CacheState)
    (yearQ : Option Int) :
    Except SvcError (List StateSummary × CacheState) :=
  let year := yearQ.getD 2023
  match cacheGet c (statesSummaryKey year) with
  | .error _ => .error .cacheUnavailable
  | .ok (some (.summaryList v)) => .ok (v, c)
  | .ok _ =>
    let result := rankSummaries (getStatesSummary db year)
    match cacheSetex c (statesSummaryKey year) 3600 (.summaryList result) with
    | .error _ => .error .cacheUnavailable
    | .ok c2 => .ok (result, c2)

/-- `PlantsService.getTopPlants` in the same effect signature as the cached
operations: neither `plants.service.ts` nor `plant.repository.ts` contains
a cache call, so the cache state is passed through untouched and no
cache entry is read or written. -/
def plantsServiceGetTopPlantsFx (db : Db) (c : CacheState)
    (q : GetPlantsQuery) :
    Except QueryError (List PlantResult × CacheState) :=
  match plantsServiceGetTopPlants db q with
  | .error e => .error e
  | .ok r => .ok (r, c)

/-! Invalidation and warming pipeline (`ingest-transactional.ts`). -/

/-- Observable steps of the post-ingestion pipeline. -/
inductive PipeEvent where
| txCommit
| refreshMv
| invalidateCache
| warmCache
deriving DecidableEq, Repr

/-- Fault injection: which pipeline step's underlying operation fails. -/
structure PipeFaults where
  refreshFails : Bool
  invalidateFails : Bool
  warmFails : Bool
deriving DecidableEq, Repr

/-- Pipeline-visible world state. -/
structure PipeState where
  dbCommitted : Bool
  mvFresh : Bool
  cacheInvalidated : Bool
  cacheWarmed : Bool
  trace : List PipeEvent
deriving DecidableEq, Repr

/-- The error with which the pipeline aborts. -/
inductive PipeError where
| refreshFailed
deriving DecidableEq, Repr

/-- The `prisma.$transaction` block: commits the relational-store write. -/
def commitTransaction (s : PipeState) : PipeState :=
  { s with dbCommitted := true, trace := s.trace ++ [.txCommit] }

/-- `refreshMaterializedView`: `REFRESH MATERIALIZED VIEW CONCURRENTLY`;
on failure it logs and rethrows. -/
def refreshMaterializedViewStep (f : PipeFaults) (s : PipeState) :
    Except PipeError PipeState :=
  if f.refreshFails then .error .refreshFailed
  else .ok { s with mvFresh := true, trace := s.trace ++ [.refreshMv] }

/-- `invalidateCache`: `deleteByPrefixes(["states:", "state:"])`; its catch
swallows the failure ("Continuing without cache invalidation"). -/
def invalidateCacheStep (f : PipeFaults) (s : PipeState) : PipeState :=
  if f.invalidateFails then s
  else { s with cacheInvalidated := true,
                trace := s.trace ++ [.invalidateCache] }

/-- `rebuildHotPayloads`: warming; its catch swallows the failure
("Continuing without cache warming"). -/
def rebuildHotPayloadsStep (f : PipeFaults) (s : PipeState) : PipeState :=
  if f.warmFails then s
  else { s with cacheWarmed := true, trace := s.trace ++ [.warmCache] }

/-- `ingestData` after the source rows are parsed: commit the transaction,
then refresh the view, then invalidate, then warm, in that order.  A
refresh failure propagates out of `ingestData` (the script exits
non-zero) and the remaining steps do not run; the already-committed
transaction is not rolled back. -/
def ingestPipeline (f : PipeFaults) (s0 : PipeState) :
    Option PipeError × PipeState :=
  let s1 := commitTransaction s0
  match refreshMaterializedViewStep f s1 with
  | .error e => (some e, s1)
  | .ok s2 => (none, rebuildHotPayloadsStep f (invalidateCacheStep f s2))

/-! Cache warming service (`cache-warming.service.ts`).  The cache is
abstracted to the set of state codes whose hot payloads are populated. -/

/-- `CacheWarmingService.warmStateCache`: every repository call sits inside
a try/catch whose catch logs and deliberately does not rethrow ("Don't
throw - we want to continue warming other states").  `failing` is the set
of state codes whose underlying repository calls fail; a failing state's
payloads are not populated, but no error escapes. -/
def warmStateCache (failing : List String) (cache : List String)
    (code : String) : List String :=
  if code ∈ failing then cache else code :: cache

/-- `CacheWarmingService.warmAllStates` over the state codes: iterates the
states in batches of `CONCURRENCY_LIMIT` (the `Promise.all` of a batch is
modelled sequentially, which preserves both the count and the final key
set); the loop body increments `warmedCount` after `warmStateCache`
returns, and its catch is unreachable because `warmStateCache` never
throws. -/
def warmAllStates (failing : List String) (states : List String)
    (cache : List String) : Nat × List String :=
  states.foldl
    (fun acc code => (acc.1 + 1, warmStateCache failing acc.2 code))
    (0, cache)

/-- No step fails. -/
def noFaults : PipeFaults := PipeFaults.mk false false false

/-- Only the aggregate refresh fails. -/
def refreshFault : PipeFaults := PipeFaults.mk true false false

/-- Only the cache invalidation fails. -/
def invalidateFault : PipeFaults := PipeFaults.mk false true false

/-- A freshly started world: nothing committed, fresh, invalidated or
warmed yet, empty trace. -/
def initialPipeState : PipeState := PipeState.mk false false false false []

/-- An unreachable cache backend. -/
def downCache : CacheState := { reachable := false, entries := [] }

/-- A reachable, empty cache backend. -/
def emptyCache : CacheState := { reachable := true, entries := [] }

/-! Ingestion pipeline (`ingest-transactional.ts`): the transactional
writes, modelled row by row.  A parsed source row carries the plant name,
state code and net generation; `CURRENT_YEAR` is the `year` parameter. -/

/-- A parsed row of the source spreadsheet. -/
structure SourceRow where
  plantName : String
  stateCode : String
  netGeneration : ℚ
deriving DecidableEq, Repr

/-- Deduply a list keeping first occurrences, in order (the key set and
insertion order of the `Map` built by `aggregateGenerationByState`). -/
def firstDedupAux (seen : List String) : List String → List String
| [] => []
| c :: cs =>
  if c ∈ seen then firstDedupAux seen cs
  else c :: firstDedupAux (c :: seen) cs

/-- The distinct state codes of the source rows in first-occurrence
order. -/
def firstDedup (l : List String) : List String := firstDedupAux [] l

/-- Fresh-id source for states (serial primary key). -/
def maxStateId (l : List StateRow) : Nat :=
  l.foldr (fun s m => max s.id m) 0

/-- Fresh-id source for plants (serial primary key). -/
def maxPlantId (l : List PlantRow) : Nat :=
  l.foldr (fun p m => max p.id m) 0

/-- `tx.state.upsert({ where: { code }, update: {}, create: { code,
name: code } })`: an existing row is left unchanged, a missing one is
created with a fresh id; either way the row's id is returned. -/
def upsertState (states : List StateRow) (code : String) :
    List StateRow × Nat :=
  match states.find? (fun s => s.code == code) with
  | some s => (states, s.id)
  | none =>
    (states ++ [{ id := maxStateId states + 1, code := code, name := code }],
     maxStateId states + 1)

/-- Step 1 of the transaction: upsert every distinct state code and record
the `stateIdMap` entries. -/
def upsertStates (states : List StateRow) :
    List String → List StateRow × List (String × Nat)
| [] => (states, [])
| c :: cs =>
  let r := upsertState states c
  let rest := upsertStates r.1 cs
  (rest.1, (c, r.2) :: rest.2)

/-- The `stateIdMap.get(plant.stateCode)` lookup. -/
def assocLookup (m : List (String × Nat)) (code : String) : Option Nat :=
  (m.find? (fun e => e.1 == code)).map (fun e => e.2)

/-- `tx.plant.upsert({ where: { name_stateId: ... }, update: {},
create: ... })`. -/
def upsertPlant (plants : List PlantRow) (pname : String) (sid : Nat) :
    List PlantRow × Nat :=
  match plants.find? (fun p => p.name == pname && p.stateId == sid) with
  | some p => (plants, p.id)
  | none =>
    (plants ++ [{ id := maxPlantId plants + 1, name := pname,
                  stateId := sid }],
     maxPlantId plants + 1)

/-- `tx.plantGeneration.upsert({ where: { plantId_year: ... },
update: { netGeneration }, create: ... })`: the `(plantId, year)` key is
unique, so the update touches exactly the matching row. -/
def upsertGen (gens : List GenRow) (pid : Nat) (year : Int) (v : ℚ) :
    List GenRow :=
  match gens.find? (fun g => g.plantId == pid && g.year == year) with
  | some _ =>
    gens.map (fun g =>
      if g.plantId == pid && g.year == year
      then { g with netGeneration := v } else g)
  | none => gens ++ [{ plantId := pid, year := year, netGeneration := v }]

/-- Step 3 of the transaction: upsert each source row's plant and its
generation fact (a row whose state code is missing from the map is
counted as an error and skipped).  The batched `Promise.all` is modelled
in row order. -/
def processPlants (m : List (String × Nat)) (year : Int) :
    List SourceRow → List PlantRow × List GenRow →
      List PlantRow × List GenRow
| [], s => s
| r :: rs, s =>
  match assocLookup m r.stateCode with
  | none => processPlants m year rs s
  | some sid =>
    let pr := upsertPlant s.1 r.plantName sid
    processPlants m year rs (pr.1, upsertGen s.2 pr.2 year r.netGeneration)

/-- The transaction of `ingestData`: upsert the states, delete the target
year's generation rows (`deleteMany({ where: { year } })`), then upsert
plants and generations row by row.  The materialized view is untouched by
the transaction (it is refreshed afterwards). -/
def ingest (rows : List SourceRow) (year : Int) (db : Db) : Db :=
  let su := upsertStates db.states (firstDedup (rows.map (fun r => r.stateCode)))
  let pg := processPlants su.2 year rows
    (db.plants, db.gens.filter (fun g => !(g.year == year)))
  { states := su.1, plants := pg.1, gens := pg.2, mv := db.mv }

/-- The refresh of `state_generation_mv`: recompute every `(state, year)`
group's sum of net generation from the generation facts. -/
def computeMv (db : Db) : List MvRow :=
  ((db.joinedGens.map (fun f => (f.stateId, f.year))).dedup).map (fun p =>
    { stateId := p.1, year := p.2,
      totalGeneration :=
        ((db.joinedGens.filter (fun f => f.stateId == p.1 && f.year == p.2)).map
          (fun f => f.netGeneration)).sum })

end Aiq

namespace Aiq

/-! Helper lemmas about `topNRows`. -/

theorem topNRows_length_le (db : Db) (top : Nat) (yearF : Option Int)
    (stateIdF : Option Nat) : (topNRows db top yearF stateIdF).length ≤ top := by
  simp only [topNRows, List.length_map, List.enum_length]
  exact le_trans (List.length_take_le _ _) (le_refl _)

theorem topNRows_rank (db : Db) (top : Nat) (yearF : Option Int)
    (stateIdF : Option Nat) (i : Nat)
    (hi : i < (topNRows db top yearF stateIdF).length) :
    ((topNRows db top yearF stateIdF).get ⟨i, hi⟩).rank = i + 1 := by
  simp only [topNRows, List.get_eq_getElem, List.getElem_map]
  have hi' : i < ((List.insertionSort genDescOrder
      (db.joinedGens.filter (matchesFilters yearF stateIdF))).take top).enum.length := by
    simpa [topNRows] using hi
  simp

theorem topNRows_netGen (db : Db) (top : Nat) (yearF : Option Int)
    (stateIdF : Option Nat) (i : Nat)
    (hi : i < (topNRows db top yearF stateIdF).length) :
    ((topNRows db top yearF stateIdF).get ⟨i, hi⟩).netGeneration =
      (((List.insertionSort genDescOrder
        (db.joinedGens.filter (matchesFilters yearF stateIdF))).take top).get
        ⟨i, by simpa [topNRows] using hi⟩).netGeneration := by
  simp [topNRows]

theorem topNRows_sorted (db : Db) (top : Nat) (yearF : Option Int)
    (stateIdF : Option Nat) :
    List.Sorted (fun a b : PlantResult => b.netGeneration ≤ a.netGeneration)
      (topNRows db top yearF stateIdF) := by
  have hsorted : List.Sorted genDescOrder
      ((List.insertionSort genDescOrder
        (db.joinedGens.filter (matchesFilters yearF stateIdF))).take top) :=
    (List.sorted_insertionSort genDescOrder _).sublist (List.take_sublist _ _)
  rw [List.Sorted, List.pairwise_iff_get]
  intro i j hij
  have h := (List.pairwise_iff_get.mp hsorted)
    ⟨i.1, by simpa [topNRows] using i.2⟩ ⟨j.1, by simpa [topNRows] using j.2⟩ hij
  rw [topNRows_netGen db top yearF stateIdF i.1 i.2,
      topNRows_netGen db top yearF stateIdF j.1 j.2]
  exact h

theorem getTopNPlants_ok (db : Db) (opts : TopPlantsOptions)
    (res : List PlantResult) (h : getTopNPlants db opts = .ok res) :
    ∃ sid, res = topNRows db opts.top opts.year sid := by
  unfold getTopNPlants at h
  split at h
  · split at h
    · exact absurd h (by simp)
    · exact ⟨_, by injection h with h'; exact h'.symm⟩
  · exact ⟨none, by injection h with h'; exact h'.symm⟩

/-- C1.  For every query accepted by `getTopNPlants(top = N, ...)` the
result has at most `N` records, is sorted non-increasingly by
`netGeneration`, and the `rank` of the `i`-th element (0-based) is
`i + 1`. -/
theorem getTopNPlants_shape (db : Db) (opts : TopPlantsOptions)
    (res : List PlantResult) (h : getTopNPlants db opts = .ok res) :
    res.length ≤ opts.top ∧
    List.Sorted (fun a b : PlantResult => b.netGeneration ≤ a.netGeneration) res ∧
    ∀ i (hi : i < res.length), (res.get ⟨i, hi⟩).rank = i + 1 := by
  obtain ⟨sid, rfl⟩ := getTopNPlants_ok db opts res h
  exact ⟨topNRows_length_le db opts.top opts.year sid,
    topNRows_sorted db opts.top opts.year sid,
    fun i hi => topNRows_rank db opts.top opts.year sid i hi⟩

/-- Witness for C1 at a concrete store and query. -/
theorem getTopNPlants_shape_witness :
    getTopNPlants exDb { top := 2, stateCode := none, year := some 2023 } =
      .ok exTopRes ∧
    (exTopRes.length ≤ 2 ∧
     List.Sorted (fun a b : PlantResult => b.netGeneration ≤ a.netGeneration)
       exTopRes ∧
     ∀ i (hi : i < exTopRes.length), (exTopRes.get ⟨i, hi⟩).rank = i + 1) :=
  ⟨by norm_num [getTopNPlants, topNRows, Db.joinedGens, matchesFilters, Db.findStateByCode, Db.mvLookup, percentOf, exDb, exTopRes, List.insertionSort, List.orderedInsert, genDescOrder, List.enum, List.enumFrom],
   getTopNPlants_shape exDb { top := 2, stateCode := none, year := some 2023 }
     exTopRes (by norm_num [getTopNPlants, topNRows, Db.joinedGens, matchesFilters, Db.findStateByCode, Db.mvLookup, percentOf, exDb, exTopRes, List.insertionSort, List.orderedInsert, genDescOrder, List.enum, List.enumFrom])⟩

/-- C3.  In `getTopNPlants`, whenever the materialized-view lookup for the
plant's `(stateId, year)` pair misses, or yields a non-positive total,
`percentOfState` is exactly `0`; and every result's percentage is either
a division by a strictly positive state total or exactly `0` — the
division is never executed with a zero (or negative) denominator. -/
theorem getTopNPlants_percent_guard (db : Db) (opts : TopPlantsOptions)
    (res : List PlantResult) (h : getTopNPlants db opts = .ok res) :
    ∀ r ∈ res,
      (db.mvLookup r.stateId r.year = none → r.percentOfState = 0) ∧
      (∀ t, db.mvLookup r.stateId r.year = some t → t ≤ 0 →
        r.percentOfState = 0) ∧
      ((∃ t, db.mvLookup r.stateId r.year = some t ∧ 0 < t ∧
          r.percentOfState = r.netGeneration / t * 100) ∨
        r.percentOfState = 0) := by
  obtain ⟨sid, rfl⟩ := getTopNPlants_ok db opts res h
  intro r hr
  simp only [topNRows, List.mem_map] at hr
  obtain ⟨ip, -, rfl⟩ := hr
  refine ⟨fun hnone => ?_, fun t ht hle => ?_, ?_⟩
  · simp [percentOf, hnone]
  · simp only [percentOf, ht, Option.getD_some]
    rw [if_neg (not_lt.mpr hle)]
  · cases hmv : db.mvLookup ip.2.stateId ip.2.year with
    | none => exact Or.inr (by simp [percentOf, hmv])
    | some t =>
      by_cases h0 : 0 < t
      · exact Or.inl ⟨t, rfl, h0, by simp [percentOf, h0]⟩
      · refine Or.inr ?_
        simp only [percentOf, hmv, Option.getD_some]
        rw [if_neg h0]

/-- Witness for C3 at a concrete store and query. -/
theorem getTopNPlants_percent_guard_witness :
    getTopNPlants exDb { top := 2, stateCode := none, year := some 2023 } =
      .ok exTopRes ∧
    (∀ r ∈ exTopRes,
      (exDb.mvLookup r.stateId r.year = none → r.percentOfState = 0) ∧
      (∀ t, exDb.mvLookup r.stateId r.year = some t → t ≤ 0 →
        r.percentOfState = 0) ∧
      ((∃ t, exDb.mvLookup r.stateId r.year = some t ∧ 0 < t ∧
          r.percentOfState = r.netGeneration / t * 100) ∨
        r.percentOfState = 0)) :=
  ⟨by norm_num [getTopNPlants, topNRows, Db.joinedGens, matchesFilters, Db.findStateByCode, Db.mvLookup, percentOf, exDb, exTopRes, List.insertionSort, List.orderedInsert, genDescOrder, List.enum, List.enumFrom],
   getTopNPlants_percent_guard exDb
     { top := 2, stateCode := none, year := some 2023 } exTopRes
     (by norm_num [getTopNPlants, topNRows, Db.joinedGens, matchesFilters, Db.findStateByCode, Db.mvLookup, percentOf, exDb, exTopRes, List.insertionSort, List.orderedInsert, genDescOrder, List.enum, List.enumFrom])⟩

/-- C2.  An unknown state code makes `getTopNPlants` fail `NotFound`
independently of the generation facts, while a resolvable filter that
matches no facts yields `ok []`; `getStateDetail` fails `NotFound` both
for an unknown code and for a known state with no aggregate row for the
year, and the two errors carry distinct messages. -/
theorem notFound_distinctions :
    (∀ db code top yearF, Db.findStateByCode db code = none →
        getTopNPlants db { top := top, stateCode := some code, year := yearF } =
          .error (.stateNotFound code)) ∧
    (∀ db code top yearF st, Db.findStateByCode db code = some st →
        db.joinedGens.filter (matchesFilters yearF (some st.id)) = [] →
        getTopNPlants db { top := top, stateCode := some code, year := yearF } =
          .ok []) ∧
    (∀ db code year, Db.findStateByCode db code = none →
        getStateDetail db code year = .error (.stateNotFound code)) ∧
    (∀ db code year st, Db.findStateByCode db code = some st →
        Db.mvLookup db st.id year = none →
        getStateDetail db code year = .error (.stateNoData code year)) ∧
    (∀ c y c', (QueryError.stateNotFound c).message ≠
        (QueryError.stateNoData c' y).message) := by
  refine ⟨?_, ?_, ?_, ?_, ?_⟩
  · intro db code top yearF h
    simp [getTopNPlants, h]
  · intro db code top yearF st h1 h2
    simp [getTopNPlants, h1, topNRows, h2]
  · intro db code year h
    simp [getStateDetail, h]
  · intro db code year st h1 h2
    simp [getStateDetail, h1, h2]
  · intro c y c' h
    have hS : (QueryError.stateNotFound c).message.data.head? = some 'S' := by
      show ("State with code '" ++ c ++ "' not found").data.head? = some 'S'
      rw [String.data_append, String.data_append]
      rfl
    have hN : (QueryError.stateNoData c' y).message.data.head? = some 'N' := by
      show ("No data found for state '" ++ c' ++ "' in year " ++
        toString y).data.head? = some 'N'
      rw [String.data_append, String.data_append, String.data_append]
      rfl
    have hc := congrArg (fun s : String => s.data.head?) h
    simp only [hS, hN] at hc
    exact absurd hc (by decide)

/-- Witness for C2 at concrete stores, codes and years. -/
theorem notFound_distinctions_witness :
    getTopNPlants exDb { top := 5, stateCode := some "ZZ", year := none } =
      .error (.stateNotFound "ZZ") ∧
    getTopNPlants exDb { top := 5, stateCode := some "CA", year := some 1900 } =
      .ok [] ∧
    getStateDetail exDb "ZZ" 2023 = .error (.stateNotFound "ZZ") ∧
    getStateDetail exDb "TX" 1900 = .error (.stateNoData "TX" 1900) ∧
    (QueryError.stateNotFound "TX").message ≠
      (QueryError.stateNoData "TX" 1900).message :=
  ⟨notFound_distinctions.1 exDb "ZZ" 5 none (by decide),
   notFound_distinctions.2.1 exDb "CA" 5 (some 1900) ⟨2, "CA", "California"⟩
     (by decide) (by decide),
   notFound_distinctions.2.2.1 exDb "ZZ" 2023 (by decide),
   notFound_distinctions.2.2.2.1 exDb "TX" 1900 ⟨1, "TX", "Texas"⟩
     (by decide) (by decide),
   notFound_distinctions.2.2.2.2 "TX" 1900 "TX"⟩

theorem sum_map_div_mul (l : List MvJoined) (T c : ℚ) :
    (l.map (fun st => st.totalGeneration / T * c)).sum =
      (l.map (fun st => st.totalGeneration)).sum / T * c := by
  induction l with
  | nil => simp
  | cons a as ih =>
    simp only [List.map_cons, List.sum_cons, ih]
    ring

/-- C8, counterexample.  A year with one aggregate row whose total is `0`:
`getStatesSummary` returns that state with `percentOfNational = 0`, so the
percentages sum to `0`, not approximately `100`. -/
theorem statesSummary_percent_sum_cex :
    cexDb.mv.filter (fun r => r.year == 2023) ≠ [] ∧
    getStatesSummary cexDb 2023 =
      [{ stateId := 1, code := "TX", name := "Texas", year := 2023,
         totalGeneration := 0, percentOfNational := 0, plantCount := 1 }] ∧
    ¬ |((getStatesSummary cexDb 2023).map
        (fun s => s.percentOfNational)).sum - 100| ≤ (1 / 2 : ℚ) := by
  refine ⟨by decide, ?_, ?_⟩ <;>
    norm_num [getStatesSummary, Db.mvJoinedForYear, Db.countPlantsWithGen,
      percentOf, cexDb, List.insertionSort, List.orderedInsert, totalDescOrder,
      abs_le]

/-- C8, amended.  For every year whose returned states' totals sum to a
positive value, the `percentOfNational` values over the rows returned by
`getStatesSummary` sum to exactly `100` (each percentage is computed
relative to that sum). -/
theorem statesSummary_percent_sum (db : Db) (year : Int)
    (h : 0 < ((db.mvJoinedForYear year).map
      (fun st => st.totalGeneration)).sum) :
    ((getStatesSummary db year).map (fun s => s.percentOfNational)).sum =
      100 := by
  have hmap : (getStatesSummary db year).map (fun s => s.percentOfNational) =
      (db.mvJoinedForYear year).map (fun st =>
        st.totalGeneration /
          (((db.mvJoinedForYear year).map
            (fun st => st.totalGeneration)).sum) * 100) := by
    simp only [getStatesSummary, List.map_map]
    refine List.map_congr_left ?_
    intro st _
    simp only [Function.comp_apply, percentOf, if_pos h]
  rw [hmap, sum_map_div_mul, div_self (ne_of_gt h), one_mul]

/-- Witness for the amended C8 at a concrete store. -/
theorem statesSummary_percent_sum_witness :
    0 < ((exDb.mvJoinedForYear 2023).map
      (fun st => st.totalGeneration)).sum ∧
    ((getStatesSummary exDb 2023).map (fun s => s.percentOfNational)).sum =
      100 :=
  ⟨by norm_num [Db.mvJoinedForYear, exDb, List.insertionSort,
      List.orderedInsert, totalDescOrder],
   statesSummary_percent_sum exDb 2023
     (by norm_num [Db.mvJoinedForYear, exDb, List.insertionSort,
       List.orderedInsert, totalDescOrder])⟩

/-! Cache-key lemmas. -/

theorem charsStart_append (l t : List Char) :
    charsStart l (l ++ t) = true := by
  induction l with
  | nil => rfl
  | cons a as ih => simp [charsStart, ih]

theorem keyStarts_self_append (p t : String) :
    keyStarts p (p ++ t) = true := by
  unfold keyStarts
  rw [String.data_append]
  exact charsStart_append p.data t.data

theorem keyStarts_plants_state (t : String) :
    keyStarts "plants:" ("state:" ++ t) = false := by
  unfold keyStarts
  rw [String.data_append]
  rfl

theorem keyStarts_plants_states (t : String) :
    keyStarts "plants:" ("states:" ++ t) = false := by
  unfold keyStarts
  rw [String.data_append]
  rfl

/-- C5, counterexample.  The sentinel for an omitted optional year is the
lowercase string `"all"`, not `"ALL"`: the key built by
`getGenerationByState("TX")` differs from the key the claim prescribes. -/
theorem cacheKey_sentinel_cex :
    genByStateKey "TX" none = "state:TX:generation:all" ∧
    genByStateKey "TX" none ≠ "state:TX:generation:ALL" ∧
    topPlantsByStateKey "TX" none 10 = "state:TX:top-plants:all:10" ∧
    topPlantsByStateKey "TX" none 10 ≠ "state:TX:top-plants:ALL:10" := by
  refine ⟨?_, ?_, ?_, ?_⟩ <;> decide

/-- C5, amended.  Cache keys are deterministic functions of the operation
name and its parameters in a fixed order; the sentinel for an absent
optional year is the lowercase `"all"`; the `states:summary:<year>` and
`state:<code>:<year>:top:<n>` keys match the spec's examples; every key
lies under the `"state:"` or `"states:"` prefix; and the example
parameter tuples map to pairwise distinct keys. -/
theorem cacheKey_shapes :
    genByStateKey "TX" (some 2023) = "state:TX:generation:2023" ∧
    genByStateKey "TX" none = "state:TX:generation:all" ∧
    topPlantsByStateKey "TX" (some 2023) 10 = "state:TX:top-plants:2023:10" ∧
    topPlantsByStateKey "TX" none 10 = "state:TX:top-plants:all:10" ∧
    statesSummaryKey 2023 = "states:summary:2023" ∧
    stateDetailKey "TX" 2023 10 = "state:TX:2023:top:10" ∧
    genByYearKey 2023 = "states:generation:year:2023" ∧
    statisticsKey "TX" = "state:TX:statistics" ∧
    statesAllKey = "states:all" ∧
    (∀ code, keyStarts "state:" (stateKey code) = true) ∧
    (∀ code yearQ, keyStarts "state:" (genByStateKey code yearQ) = true) ∧
    (∀ code yearQ limit,
      keyStarts "state:" (topPlantsByStateKey code yearQ limit) = true) ∧
    (∀ code, keyStarts "state:" (statisticsKey code) = true) ∧
    (∀ code year top,
      keyStarts "state:" (stateDetailKey code year top) = true) ∧
    (∀ year, keyStarts "states:" (genByYearKey year) = true) ∧
    (∀ year, keyStarts "states:" (statesSummaryKey year) = true) ∧
    keyStarts "states:" statesAllKey = true ∧
    List.Nodup
      [stateDetailKey "TX" 2023 10, stateDetailKey "TX" 2023 20,
       stateDetailKey "CA" 2023 10, stateDetailKey "TX" 2022 10,
       statesSummaryKey 2023, statesSummaryKey 2022,
       genByStateKey "TX" none, genByStateKey "TX" (some 2023),
       topPlantsByStateKey "TX" none 10,
       topPlantsByStateKey "TX" (some 2023) 10,
       genByYearKey 2023, statisticsKey "TX", statesAllKey,
       stateKey "TX"] := by
  refine ⟨by decide, by decide, by decide, by decide, by decide, by decide,
    by decide, by decide, by decide, ?_, ?_, ?_, ?_, ?_, ?_, ?_,
    by decide, by decide⟩
  · intro code
    exact keyStarts_self_append "state:" code
  · intro code yearQ
    cases yearQ <;> exact keyStarts_self_append "state:" _
  · intro code yearQ limit
    cases yearQ <;> exact keyStarts_self_append "state:" _
  · intro code
    exact keyStarts_self_append "state:" _
  · intro code year top
    exact keyStarts_self_append "state:" _
  · intro year
    exact keyStarts_self_append "states:" _
  · intro year
    exact keyStarts_self_append "states:" _

/-- C4.  The fallback mock client degrades every cache operation to a
no-op; `StateRepository.findAll` under an unreachable backend still
returns the correct database result with no escaping exception and an
unchanged cache — but `StatesService.getStatesSummary` rethrows a failed
cache command, so with the backend unreachable at call time the cache
error escapes instead of the computed summary being returned. -/
theorem cacheDegradation_bug :
    (∀ k, mockGet k = none) ∧
    (∀ k ttl v, mockSetex k ttl v = "OK") ∧
    (∀ k, mockDel k = 0) ∧
    (∀ cur, mockScan cur = ("0", [])) ∧
    (∀ db c, c.reachable = false →
      stateRepoFindAll db c = (dbFindAllStates db, c)) ∧
    statesServiceGetStatesSummary exDb downCache (some 2023) =
      .error .cacheUnavailable ∧
    getStatesSummary exDb 2023 ≠ [] := by
  refine ⟨fun _ => rfl, fun _ _ _ => rfl, fun _ => rfl, fun _ => rfl,
    ?_, rfl, ?_⟩
  · intro db c h
    simp [stateRepoFindAll, cacheGet, cacheSetex, h]
  · intro hemp
    norm_num [getStatesSummary, Db.mvJoinedForYear, Db.countPlantsWithGen,
      percentOf, exDb, List.insertionSort, List.orderedInsert,
      totalDescOrder] at hemp
    exact List.cons_ne_nil _ _ hemp

/-- Witness for C4 at a concrete store and an unreachable cache. -/
theorem cacheDegradation_bug_witness :
    downCache.reachable = false ∧
    stateRepoFindAll exDb downCache = (dbFindAllStates exDb, downCache) ∧
    mockGet statesAllKey = none :=
  ⟨rfl, cacheDegradation_bug.2.2.2.2.1 exDb downCache rfl,
   cacheDegradation_bug.1 statesAllKey⟩

/-- C10.  The top-N plants operation (service delegating to the
repository) performs no cache reads or writes: in the effectful signature
the cache state is returned unchanged and the result is exactly the
repository computation; moreover no cache key ever built by the system
lies in the `plants` domain. -/
theorem plantsService_no_cache_effect :
    (∀ db c q out, plantsServiceGetTopPlantsFx db c q = .ok out →
      out.2 = c ∧ plantsServiceGetTopPlants db q = .ok out.1) ∧
    (∀ db c q e, plantsServiceGetTopPlantsFx db c q = .error e →
      plantsServiceGetTopPlants db q = .error e) ∧
    (∀ code, keyStarts "plants:" (stateKey code) = false) ∧
    (∀ code yearQ, keyStarts "plants:" (genByStateKey code yearQ) = false) ∧
    (∀ code yearQ limit,
      keyStarts "plants:" (topPlantsByStateKey code yearQ limit) = false) ∧
    (∀ code, keyStarts "plants:" (statisticsKey code) = false) ∧
    (∀ code year top,
      keyStarts "plants:" (stateDetailKey code year top) = false) ∧
    (∀ year, keyStarts "plants:" (genByYearKey year) = false) ∧
    (∀ year, keyStarts "plants:" (statesSummaryKey year) = false) ∧
    keyStarts "plants:" statesAllKey = false := by
  refine ⟨?_, ?_, fun code => keyStarts_plants_state _, ?_, ?_,
    fun code => keyStarts_plants_state _, ?_, ?_, ?_, by decide⟩
  · intro db c q out h
    unfold plantsServiceGetTopPlantsFx at h
    split at h
    · exact absurd h (by simp)
    · rename_i r hr
      injection h with h
      exact ⟨by rw [← h], by rw [hr, ← h]⟩
  · intro db c q e h
    unfold plantsServiceGetTopPlantsFx at h
    split at h
    · rename_i r hr
      injection h with h
      rw [hr, h]
    · exact absurd h (by simp)
  · intro code yearQ
    cases yearQ <;> exact keyStarts_plants_state _
  · intro code yearQ limit
    cases yearQ <;> exact keyStarts_plants_state _
  · intro code year top
    exact keyStarts_plants_state _
  · intro year
    exact keyStarts_plants_states _
  · intro year
    exact keyStarts_plants_states _

/-- Witness for C10 at a concrete store, cache and query. -/
theorem plantsService_no_cache_effect_witness :
    plantsServiceGetTopPlantsFx exDb emptyCache
      { top := some 2, state := none, year := some 2023 } =
      .ok (exTopRes, emptyCache) ∧
    (exTopRes, emptyCache).2 = emptyCache ∧
    plantsServiceGetTopPlants exDb
      { top := some 2, state := none, year := some 2023 } = .ok exTopRes :=
  ⟨by norm_num [plantsServiceGetTopPlantsFx, plantsServiceGetTopPlants, getTopNPlants, topNRows, Db.joinedGens, matchesFilters, Db.findStateByCode, Db.mvLookup, percentOf, exDb, exTopRes, List.insertionSort, List.orderedInsert, genDescOrder, List.enum, List.enumFrom],
   (plantsService_no_cache_effect.1 exDb emptyCache
     { top := some 2, state := none, year := some 2023 } (exTopRes, emptyCache)
     (by norm_num [plantsServiceGetTopPlantsFx, plantsServiceGetTopPlants, getTopNPlants, topNRows, Db.joinedGens, matchesFilters, Db.findStateByCode, Db.mvLookup, percentOf, exDb, exTopRes, List.insertionSort, List.orderedInsert, genDescOrder, List.enum, List.enumFrom])).1,
   (plantsService_no_cache_effect.1 exDb emptyCache
     { top := some 2, state := none, year := some 2023 } (exTopRes, emptyCache)
     (by norm_num [plantsServiceGetTopPlantsFx, plantsServiceGetTopPlants, getTopNPlants, topNRows, Db.joinedGens, matchesFilters, Db.findStateByCode, Db.mvLookup, percentOf, exDb, exTopRes, List.insertionSort, List.orderedInsert, genDescOrder, List.enum, List.enumFrom])).2⟩

/-- C6.  The post-commit pipeline runs refresh → invalidate → warm in
strict order; a refresh failure aborts the pipeline with an error before
invalidation or warming runs, leaving the committed transaction in place;
an invalidation failure is swallowed and warming still runs. -/
theorem pipeline_order_and_failures (f : PipeFaults) (s0 : PipeState) :
    (f.refreshFails = false → f.invalidateFails = false →
      f.warmFails = false →
      ingestPipeline f s0 = (none,
        { dbCommitted := true, mvFresh := true, cacheInvalidated := true,
          cacheWarmed := true,
          trace := s0.trace ++
            [.txCommit, .refreshMv, .invalidateCache, .warmCache] })) ∧
    (f.refreshFails = true →
      ingestPipeline f s0 =
        (some .refreshFailed,
         { s0 with dbCommitted := true,
                   trace := s0.trace ++ [.txCommit] })) ∧
    (f.refreshFails = false → f.invalidateFails = true →
      f.warmFails = false →
      ingestPipeline f s0 = (none,
        { s0 with dbCommitted := true, mvFresh := true, cacheWarmed := true,
                  trace := s0.trace ++
                    [.txCommit, .refreshMv, .warmCache] })) := by
  refine ⟨?_, ?_, ?_⟩
  · intro h1 h2 h3
    simp [ingestPipeline, commitTransaction, refreshMaterializedViewStep,
      invalidateCacheStep, rebuildHotPayloadsStep, h1, h2, h3]
  · intro h1
    simp [ingestPipeline, commitTransaction, refreshMaterializedViewStep, h1]
  · intro h1 h2 h3
    simp [ingestPipeline, commitTransaction, refreshMaterializedViewStep,
      invalidateCacheStep, rebuildHotPayloadsStep, h1, h2, h3]

/-- Witness for C6: the three failure regimes at a concrete initial
state. -/
theorem pipeline_order_and_failures_witness :
    ingestPipeline noFaults initialPipeState =
      (none, PipeState.mk true true true true
        [.txCommit, .refreshMv, .invalidateCache, .warmCache]) ∧
    ingestPipeline refreshFault initialPipeState =
      (some .refreshFailed, PipeState.mk true false false false
        [.txCommit]) ∧
    ingestPipeline invalidateFault initialPipeState =
      (none, PipeState.mk true true false true
        [.txCommit, .refreshMv, .warmCache]) :=
  ⟨(pipeline_order_and_failures noFaults initialPipeState).1 rfl rfl rfl,
   (pipeline_order_and_failures refreshFault initialPipeState).2.1 rfl,
   (pipeline_order_and_failures invalidateFault initialPipeState).2.2
     rfl rfl rfl⟩

theorem warmAllStates_count_aux (failing : List String) :
    ∀ (states : List String) (acc : Nat × List String),
      (states.foldl
        (fun a code => (a.1 + 1, warmStateCache failing a.2 code)) acc).1 =
        acc.1 + states.length := by
  intro states
  induction states with
  | nil => intro acc; simp
  | cons c cs ih =>
    intro acc
    simp only [List.foldl_cons, List.length_cons, ih]
    omega

/-- C7.  `warmAllStates` reports `warmedCount = states.length` regardless
of failures, because `warmStateCache` swallows its own errors and the
counting catch is therefore unreachable: with two states of which one
fails, it reports 2 warmed although only one state's payloads were
populated — while warming of the other state indeed still ran. -/
theorem warmAllStates_overcounts :
    (∀ failing states cache,
      (warmAllStates failing states cache).1 = states.length) ∧
    warmAllStates ["TX"] ["TX", "CA"] [] = (2, ["CA"]) ∧
    (warmAllStates ["TX"] ["TX", "CA"] []).2.length = 1 ∧
    "CA" ∈ (warmAllStates ["TX"] ["TX", "CA"] []).2 ∧
    "TX" ∉ (warmAllStates ["TX"] ["TX", "CA"] []).2 ∧
    (2 : Nat) ≠ 1 := by
  refine ⟨?_, by decide, by decide, by decide, by decide, by decide⟩
  intro failing states cache
  simpa using warmAllStates_count_aux failing states (0, cache)

/-! Ingestion lemmas: a first run saturates the store, so a second run's
lookups find what the first created and every write is a no-op in effect. -/

theorem find?_append_some {α} (p : α → Bool) {l : List α} {x : α}
    (t : List α) (h : l.find? p = some x) : (l ++ t).find? p = some x := by
  induction l with
  | nil => simp [List.find?] at h
  | cons a as ih =>
    rw [List.cons_append]
    cases hpa : p a with
    | true =>
      rw [List.find?_cons_of_pos _ hpa] at h
      rw [List.find?_cons_of_pos _ hpa]
      exact h
    | false =>
      rw [List.find?_cons_of_neg _ (by simp [hpa])] at h
      rw [List.find?_cons_of_neg _ (by simp [hpa])]
      exact ih h

theorem find?_append_none {α} (p : α → Bool) {l : List α}
    (t : List α) (h : l.find? p = none) : (l ++ t).find? p = t.find? p := by
  induction l with
  | nil => simp
  | cons a as ih =>
    cases hpa : p a with
    | true =>
      rw [List.find?_cons_of_pos _ hpa] at h
      exact absurd h (by simp)
    | false =>
      rw [List.find?_cons_of_neg _ (by simp [hpa])] at h
      rw [List.cons_append, List.find?_cons_of_neg _ (by simp [hpa])]
      exact ih h

theorem upsertStates_fst_append (codes : List String) :
    ∀ states, ∃ t, (upsertStates states codes).1 = states ++ t := by
  induction codes with
  | nil => intro states; exact ⟨[], (List.append_nil states).symm⟩
  | cons c cs ih =>
    intro states
    cases hf : states.find? (fun s => s.code == c) with
    | some s =>
      obtain ⟨t, ht⟩ := ih states
      exact ⟨t, by simp [upsertStates, upsertState, hf, ht]⟩
    | none =>
      obtain ⟨t, ht⟩ :=
        ih (states ++ [{ id := maxStateId states + 1, code := c, name := c }])
      exact ⟨{ id := maxStateId states + 1, code := c, name := c } :: t,
        by simp [upsertStates, upsertState, hf, ht]⟩

theorem upsertStates_stable (codes : List String) :
    ∀ states,
      upsertStates (upsertStates states codes).1 codes =
        upsertStates states codes := by
  induction codes with
  | nil => intro states; rfl
  | cons c cs ih =>
    intro states
    cases hf : states.find? (fun s => s.code == c) with
    | some s =>
      have hfin : (upsertStates states cs).1.find? (fun st => st.code == c) =
          some s := by
        obtain ⟨t, ht⟩ := upsertStates_fst_append cs states
        rw [ht]
        exact find?_append_some _ t hf
      simp only [upsertStates, upsertState, hf, hfin, ih states]
    | none =>
      have hfin : (upsertStates
          (states ++ [{ id := maxStateId states + 1, code := c, name := c }])
          cs).1.find? (fun st => st.code == c) =
          some { id := maxStateId states + 1, code := c, name := c } := by
        obtain ⟨t, ht⟩ := upsertStates_fst_append cs
          (states ++ [{ id := maxStateId states + 1, code := c, name := c }])
        rw [ht, List.append_assoc, find?_append_none _ _ hf]
        simp [List.find?]
      simp only [upsertStates, upsertState, hf, hfin,
        ih (states ++ [{ id := maxStateId states + 1, code := c, name := c }])]

theorem processPlants_fst_append (m : List (String × Nat)) (year : Int)
    (rows : List SourceRow) :
    ∀ p g, ∃ t, (processPlants m year rows (p, g)).1 = p ++ t := by
  induction rows with
  | nil => intro p g; exact ⟨[], (List.append_nil p).symm⟩
  | cons r rs ih =>
    intro p g
    cases hl : assocLookup m r.stateCode with
    | none =>
      obtain ⟨t, ht⟩ := ih p g
      exact ⟨t, by simp [processPlants, hl, ht]⟩
    | some sid =>
      cases hf : p.find? (fun q => q.name == r.plantName && q.stateId == sid) with
      | some q =>
        obtain ⟨t, ht⟩ := ih p (upsertGen g q.id year r.netGeneration)
        exact ⟨t, by simp [processPlants, hl, upsertPlant, hf, ht]⟩
      | none =>
        obtain ⟨t, ht⟩ := ih
          (p ++ [{ id := maxPlantId p + 1, name := r.plantName,
                   stateId := sid }])
          (upsertGen g (maxPlantId p + 1) year r.netGeneration)
        exact ⟨{ id := maxPlantId p + 1, name := r.plantName,
                 stateId := sid } :: t,
          by simp [processPlants, hl, upsertPlant, hf, ht]⟩

theorem processPlants_stable (m : List (String × Nat)) (year : Int)
    (rows : List SourceRow) :
    ∀ p g,
      processPlants m year rows ((processPlants m year rows (p, g)).1, g) =
        processPlants m year rows (p, g) := by
  induction rows with
  | nil => intro p g; rfl
  | cons r rs ih =>
    intro p g
    cases hl : assocLookup m r.stateCode with
    | none =>
      simp only [processPlants, hl]
      exact ih p g
    | some sid =>
      cases hf : p.find? (fun q => q.name == r.plantName && q.stateId == sid) with
      | some q =>
        have hfin : ((processPlants m year rs
            (p, upsertGen g q.id year r.netGeneration)).1).find?
            (fun q2 => q2.name == r.plantName && q2.stateId == sid) =
            some q := by
          obtain ⟨t, ht⟩ := processPlants_fst_append m year rs p
            (upsertGen g q.id year r.netGeneration)
          rw [ht]
          exact find?_append_some _ t hf
        simp only [processPlants, hl, upsertPlant, hf, hfin]
        exact ih p (upsertGen g q.id year r.netGeneration)
      | none =>
        have hfin : ((processPlants m year rs
            (p ++ [{ id := maxPlantId p + 1, name := r.plantName,
                     stateId := sid }],
             upsertGen g (maxPlantId p + 1) year r.netGeneration)).1).find?
            (fun q2 => q2.name == r.plantName && q2.stateId == sid) =
            some { id := maxPlantId p + 1, name := r.plantName,
                   stateId := sid } := by
          obtain ⟨t, ht⟩ := processPlants_fst_append m year rs
            (p ++ [{ id := maxPlantId p + 1, name := r.plantName,
                     stateId := sid }])
            (upsertGen g (maxPlantId p + 1) year r.netGeneration)
          rw [ht, List.append_assoc, find?_append_none _ _ hf]
          simp [List.find?]
        simp only [processPlants, hl, upsertPlant, hf, hfin]
        exact ih
          (p ++ [{ id := maxPlantId p + 1, name := r.plantName,
                   stateId := sid }])
          (upsertGen g (maxPlantId p + 1) year r.netGeneration)

theorem filter_map_id_of {α} (f : α → α) (q : α → Bool) (l : List α)
    (h1 : ∀ x, q (f x) = q x) (h2 : ∀ x, q x = true → f x = x) :
    (l.map f).filter q = l.filter q := by
  induction l with
  | nil => rfl
  | cons a as ih =>
    cases hqa : q a with
    | false => simp [List.filter_cons, hqa, h1 a, ih]
    | true => simp [List.filter_cons, hqa, h1 a, h2 a hqa, ih]

theorem upsertGen_filter_ne_year (gens : List GenRow) (pid : Nat)
    (year : Int) (v : ℚ) :
    (upsertGen gens pid year v).filter (fun g => !(g.year == year)) =
      gens.filter (fun g => !(g.year == year)) := by
  unfold upsertGen
  cases hf : gens.find? (fun g => g.plantId == pid && g.year == year) with
  | some g0 =>
    apply filter_map_id_of
    · intro x
      cases hcond : (x.plantId == pid && x.year == year) <;> simp [hcond]
    · intro x hqx
      cases hcond : (x.plantId == pid && x.year == year) with
      | false => simp [hcond]
      | true =>
        exfalso
        have hx : x.year = year := by
          have := (Bool.and_eq_true _ _).mp hcond
          exact eq_of_beq this.2
        simp [hx] at hqx
  | none =>
    rw [List.filter_append]
    simp

theorem filter_idem {α} (q : α → Bool) (l : List α) :
    (l.filter q).filter q = l.filter q := by
  induction l with
  | nil => rfl
  | cons a as ih =>
    cases hqa : q a with
    | false => simp [List.filter_cons, hqa, ih]
    | true => simp [List.filter_cons, hqa, ih]

theorem processPlants_filter_ne_year (m : List (String × Nat)) (year : Int)
    (rows : List SourceRow) :
    ∀ p g,
      ((processPlants m year rows (p, g)).2).filter
        (fun gg => !(gg.year == year)) =
      g.filter (fun gg => !(gg.year == year)) := by
  induction rows with
  | nil => intro p g; rfl
  | cons r rs ih =>
    intro p g
    cases hl : assocLookup m r.stateCode with
    | none =>
      simp only [processPlants, hl]
      exact ih p g
    | some sid =>
      simp only [processPlants, hl]
      rw [ih _ _, upsertGen_filter_ne_year]

/-- C9.  Running the ingestion transaction twice with identical source
rows for the same year leaves the relational store in exactly the same
state as running it once — the same states, plants and generation rows —
and therefore also the same recomputed aggregate values. -/
theorem ingest_idempotent (rows : List SourceRow) (year : Int) (db : Db) :
    ingest rows year (ingest rows year db) = ingest rows year db ∧
    computeMv (ingest rows year (ingest rows year db)) =
      computeMv (ingest rows year db) := by
  have hmain : ingest rows year (ingest rows year db) = ingest rows year db := by
    set codes := firstDedup (rows.map (fun r => r.stateCode)) with hcodes
    set S1 := upsertStates db.states codes with hS1
    set PG1 := processPlants S1.2 year rows
      (db.plants, db.gens.filter (fun g => !(g.year == year))) with hPG1
    have e1 : upsertStates S1.1 codes = S1 := upsertStates_stable codes db.states
    have e2 : PG1.2.filter (fun g => !(g.year == year)) =
        db.gens.filter (fun g => !(g.year == year)) := by
      rw [hPG1, processPlants_filter_ne_year S1.2 year rows db.plants
        (db.gens.filter (fun g => !(g.year == year))), filter_idem]
    have e3 : processPlants S1.2 year rows
        (PG1.1, db.gens.filter (fun g => !(g.year == year))) = PG1 :=
      processPlants_stable S1.2 year rows db.plants
        (db.gens.filter (fun g => !(g.year == year)))
    calc ingest rows year (ingest rows year db)
        = { states := (upsertStates S1.1 codes).1,
            plants := (processPlants (upsertStates S1.1 codes).2 year rows
              (PG1.1, PG1.2.filter (fun g => !(g.year == year)))).1,
            gens := (processPlants (upsertStates S1.1 codes).2 year rows
              (PG1.1, PG1.2.filter (fun g => !(g.year == year)))).2,
            mv := db.mv } := rfl
      _ = { states := S1.1, plants := PG1.1, gens := PG1.2, mv := db.mv } := by
            rw [e1, e2, e3]
      _ = ingest rows year db := rfl
  exact ⟨hmain, by rw [hmain]⟩

end Aiq
